import Mathlib

set_option maxRecDepth 8000

/-!
Shallow embedding of the disposable-mail relay bot (src/bot.py).

The sqlite database is modelled as an explicit record of table contents;
every `db_*` function of the source becomes a pure state-passing function.
Machine integers of the source (chat ids, timestamps) are modelled as
`Int`/`Nat`; sqlite `INSERT OR IGNORE` under the two UNIQUE constraints of
the `mailboxes` table is modelled by an explicit pre-insert check.  A
`fetchone()[0]` on an empty cursor (a `TypeError` crash in Python) is
modelled by returning `none`.
-/

namespace DisposableMail

/-- A row of the `mailboxes` table (src/bot.py, `init_db`):
id, chat_id, user_seq, address, password, token, label, created_at. -/
structure Mailbox where
  dbId : Nat
  chatId : Int
  userSeq : Nat
  address : String
  password : String
  token : String
  label : Option String
  createdAt : Nat
deriving DecidableEq

/-- A row of the `active_mailbox` table: chat_id (primary key), mailbox_id, updated_at. -/
structure ActiveRow where
  chatId : Int
  mailboxId : Nat
  updatedAt : Nat
deriving DecidableEq

/-- A row of the `seen_messages` table: chat_id, message_id, seen_at,
with PRIMARY KEY (chat_id, message_id). -/
structure SeenRow where
  chatId : Int
  messageId : String
  seenAt : Nat
deriving DecidableEq

/-- The whole database.  `nextId` models the AUTOINCREMENT counter of the
`mailboxes` table (sqlite starts assigning ids at 1). -/
structure DB where
  mailboxes : List Mailbox
  nextId : Nat
  active : List ActiveRow
  seen : List SeenRow
deriving DecidableEq

def DB.empty : DB := ⟨[], 1, [], []⟩

/-- The rows of the `mailboxes` table belonging to one chat,
in insertion order (`WHERE chat_id=?`). -/
def chatRows (db : DB) (chat : Int) : List Mailbox :=
  db.mailboxes.filter (fun m => decide (m.chatId = chat))

/-- The `user_seq` values currently stored for a chat. -/
def chatSeqs (db : DB) (chat : Int) : List Nat :=
  (chatRows db chat).map Mailbox.userSeq

/-- `SELECT COALESCE(MAX(user_seq), 0) FROM mailboxes WHERE chat_id=?`. -/
def maxSeq (db : DB) (chat : Int) : Nat :=
  (chatSeqs db chat).foldl max 0

/-- Whether a row with the given (chat_id, user_seq) exists
(the UNIQUE(chat_id, user_seq) constraint). -/
def seqTaken (db : DB) (chat : Int) (seq : Nat) : Bool :=
  db.mailboxes.any (fun m => decide (m.chatId = chat ∧ m.userSeq = seq))

/-- Whether a row with the given (chat_id, address) exists
(the UNIQUE(chat_id, address) constraint). -/
def addrTaken (db : DB) (chat : Int) (addr : String) : Bool :=
  db.mailboxes.any (fun m => decide (m.chatId = chat ∧ m.address = addr))

/-- First half of `db_save_mailbox`: the `SELECT COALESCE(MAX(user_seq),0)+1`
read.  Split out because nothing in the source serializes the read against
the subsequent insert (each call opens its own connection). -/
def save_phase1 (db : DB) (chat : Int) : Nat := maxSeq db chat + 1

/-- Second half of `db_save_mailbox`: the `INSERT OR IGNORE` with an already
computed user_seq, followed by `SELECT id ... WHERE chat_id=? AND address=?`
and `fetchone()[0]`.  The insert is silently dropped when either UNIQUE
constraint would be violated; the final lookup returns `none` exactly when
`fetchone()` yields no row, which in the source is an uncaught `TypeError`. -/
def save_phase2 (db : DB) (chat : Int) (seq : Nat) (addr pw tok : String) (now : Nat) :
    DB × Option Nat :=
  let db1 :=
    if seqTaken db chat seq || addrTaken db chat addr then db
    else { db with
            mailboxes := db.mailboxes ++ [⟨db.nextId, chat, seq, addr, pw, tok, none, now⟩],
            nextId := db.nextId + 1 }
  (db1, (db1.mailboxes.find? (fun m => decide (m.chatId = chat ∧ m.address = addr))).map Mailbox.dbId)

/-- `db_save_mailbox` (src/bot.py lines 140-160): compute
max(user_seq)+1 for the chat, INSERT OR IGNORE, then look the id up by
(chat_id, address). -/
def db_save_mailbox (db : DB) (chat : Int) (addr pw tok : String) (now : Nat) : DB × Option Nat :=
  save_phase2 db chat (save_phase1 db chat) addr pw tok now

/-- Insertion into a list sorted by user_seq descending (models ORDER BY user_seq DESC). -/
def insertDesc (m : Mailbox) : List Mailbox → List Mailbox
  | [] => [m]
  | x :: xs => if x.userSeq ≤ m.userSeq then m :: x :: xs else x :: insertDesc m xs

def sortDesc : List Mailbox → List Mailbox
  | [] => []
  | x :: xs => insertDesc x (sortDesc xs)

/-- `db_list_mailboxes`: the chat's rows ordered by user_seq descending. -/
def db_list_mailboxes (db : DB) (chat : Int) : List Mailbox :=
  sortDesc (chatRows db chat)

/-- `db_get_mailbox_by_seq`: `SELECT ... WHERE chat_id=? AND user_seq=?`. -/
def db_get_mailbox_by_seq (db : DB) (chat : Int) (seq : Nat) : Option Mailbox :=
  db.mailboxes.find? (fun m => decide (m.chatId = chat ∧ m.userSeq = seq))

/-- `db_set_active_mailbox`: INSERT ... ON CONFLICT(chat_id) DO UPDATE (an upsert). -/
def db_set_active_mailbox (db : DB) (chat : Int) (mid : Nat) (now : Nat) : DB :=
  { db with active :=
      if db.active.any (fun a => decide (a.chatId = chat)) then
        db.active.map (fun a => if a.chatId = chat then ⟨chat, mid, now⟩ else a)
      else db.active ++ [⟨chat, mid, now⟩] }

/-- `db_get_active_mailbox`: the JOIN of active_mailbox with mailboxes on
m.id = a.mailbox_id (the source joins on the id only, not on the chat),
returning (mailbox id, address, token). -/
def db_get_active_mailbox (db : DB) (chat : Int) : Option (Nat × String × String) :=
  match db.active.find? (fun a => decide (a.chatId = chat)) with
  | none => none
  | some a =>
    match db.mailboxes.find? (fun m => decide (m.dbId = a.mailboxId)) with
    | none => none
    | some m => some (m.dbId, m.address, m.token)

/-- `db_delete_active_mailbox_only`: `DELETE FROM active_mailbox WHERE chat_id=?`. -/
def db_delete_active_mailbox_only (db : DB) (chat : Int) : DB :=
  { db with active := db.active.filter (fun a => decide (a.chatId ≠ chat)) }

/-- `db_delete_saved_by_seq` (src/bot.py lines 233-252): find the row's id;
if absent return false; otherwise delete the active pointer rows matching
(chat_id, mailbox_id) and the mailbox row, and return true. -/
def db_delete_saved_by_seq (db : DB) (chat : Int) (seq : Nat) : DB × Bool :=
  match db_get_mailbox_by_seq db chat seq with
  | none => (db, false)
  | some mb =>
    let active1 := db.active.filter (fun a => decide (¬ (a.chatId = chat ∧ a.mailboxId = mb.dbId)))
    let mailboxes1 := db.mailboxes.filter (fun m => decide (¬ (m.chatId = chat ∧ m.dbId = mb.dbId)))
    ({ db with active := active1, mailboxes := mailboxes1 }, true)

/-- `db_set_label_by_seq`: `UPDATE mailboxes SET label=? WHERE chat_id=? AND user_seq=?`;
returns whether any row changed (`cur.rowcount > 0`). -/
def db_set_label_by_seq (db : DB) (chat : Int) (seq : Nat) (label : String) : DB × Bool :=
  if db.mailboxes.any (fun m => decide (m.chatId = chat ∧ m.userSeq = seq)) then
    let mailboxes1 := db.mailboxes.map
      (fun m => if m.chatId = chat ∧ m.userSeq = seq then { m with label := some label } else m)
    ({ db with mailboxes := mailboxes1 }, true)
  else (db, false)

/-- `db_get_token`: `SELECT token FROM mailboxes WHERE chat_id=? AND id=?`. -/
def db_get_token (db : DB) (chat : Int) (mid : Nat) : Option String :=
  (db.mailboxes.find? (fun m => decide (m.chatId = chat ∧ m.dbId = mid))).map Mailbox.token

/-- `db_is_seen`: `SELECT 1 FROM seen_messages WHERE chat_id=? AND message_id=? LIMIT 1`. -/
def db_is_seen (db : DB) (chat : Int) (mid : String) : Bool :=
  db.seen.any (fun s => decide (s.chatId = chat ∧ s.messageId = mid))

/-- `db_mark_seen`: `INSERT OR IGNORE INTO seen_messages ...` under the
(chat_id, message_id) primary key. -/
def db_mark_seen (db : DB) (chat : Int) (mid : String) (now : Nat) : DB :=
  if db_is_seen db chat mid then db
  else { db with seen := db.seen ++ [⟨chat, mid, now⟩] }

/-! ### Message formatter (src/bot.py lines 350-401)

`extract_otp` applies `re.search` with the pattern
`(?<!\d)(\d{4,8})(?!\d)` and returns group 1 of the first match.  The
search semantics are embedded directly: positions are tried left to
right; at each position the negative lookbehind is checked, then the
greedy `\d{4,8}` tries lengths 8 down to 4, each followed by the
negative lookahead.  Python's `\d` also covers non-ASCII decimal digits;
here `Char.isDigit` (ASCII 0-9) is used. -/

/-- The negative lookbehind `(?<!\d)`: succeeds when there is no previous
character or the previous character is not a digit. -/
def lookbehindOk : Option Char → Bool
  | none => true
  | some c => !c.isDigit

/-- Consume exactly `n` digits from the front, returning them and the rest. -/
def takeExact : Nat → List Char → Option (List Char × List Char)
  | 0, rest => some ([], rest)
  | _ + 1, [] => none
  | n + 1, c :: rest =>
    if c.isDigit then
      match takeExact n rest with
      | some (run, r) => some (c :: run, r)
      | none => none
    else none

/-- The negative lookahead `(?!\d)`: succeeds at end of input or before a
non-digit. -/
def lookaheadOk : List Char → Bool
  | [] => true
  | c :: _ => !c.isDigit

/-- Greedy `\d{k..4}` with backtracking, each candidate followed by the
negative lookahead. -/
def matchHere : Nat → List Char → Option (List Char)
  | 0, _ => none
  | 1, _ => none
  | 2, _ => none
  | 3, _ => none
  | k + 4, s =>
    match takeExact (k + 4) s with
    | some (run, rest) => if lookaheadOk rest then some run else matchHere (k + 3) s
    | none => matchHere (k + 3) s

/-- `re.search`: try the pattern at every position, left to right, carrying
the previous character for the lookbehind. -/
def searchAux : Option Char → List Char → Option (List Char)
  | prev, [] => if lookbehindOk prev then matchHere 8 [] else none
  | prev, c :: rest =>
    match (if lookbehindOk prev then matchHere 8 (c :: rest) else none) with
    | some r => some r
    | none => searchAux (some c) rest

/-- `extract_otp` (src/bot.py lines 350-372). -/
def extract_otp (s : String) : Option String :=
  (searchAux none s.data).map (fun l => String.mk l)

/-- The maximal runs of consecutive digits of a string, in reading order. -/
def digitRuns : List Char → List (List Char)
  | [] => []
  | c :: rest =>
    if c.isDigit then
      (c :: rest.takeWhile Char.isDigit) :: digitRuns (rest.dropWhile Char.isDigit)
    else
      digitRuns rest
termination_by s => s.length
decreasing_by
  · simp only [List.length_cons]
    have h : ∀ (l : List Char), (List.dropWhile Char.isDigit l).length ≤ l.length := by
      intro l
      induction l with
      | nil => simp [List.dropWhile]
      | cons a l ih =>
        simp only [List.dropWhile]
        split
        · exact Nat.le_succ_of_le ih
        · exact Nat.le_refl _
    exact Nat.lt_succ_of_le (h _)
  · simp

/-- Modelled from the spec: "returns the first maximal run of 4-8 digits
not immediately adjacent to another digit (a digit run bounded by
non-digit or string edges on both sides)"; used only to compare against
the embedded `extract_otp`. -/
def extractOtpSpec (s : String) : Option String :=
  ((digitRuns s.data).find? (fun r => decide (4 ≤ r.length ∧ r.length ≤ 8))).map
    (fun l => String.mk l)

/-- Python `str.strip()`: drop leading and trailing whitespace
(done at the character level so that proofs can compute). -/
def pyStrip (s : String) : String :=
  String.mk (((s.data.dropWhile Char.isWhitespace).reverse.dropWhile Char.isWhitespace).reverse)

/-- Python `str.lower()`, character by character. -/
def pyLower (s : String) : String :=
  String.mk (s.data.map Char.toLower)

/-- Python truthiness of an optional string: `None` and `""` are falsy. -/
def pyOr (o : Option String) (dflt : String) : String :=
  match o with
  | none => dflt
  | some s => if s = "" then dflt else s

/-- `text[:n]`: the first `n` characters. -/
def strTake (s : String) (n : Nat) : String := String.mk (s.data.take n)

/-- A provider message record as consumed by `format_full_message`:
from.address, subject, createdAt, text, html.  A missing key is `none`. -/
structure MailRecord where
  fromAddr : Option String
  subject : Option String
  createdAt : Option String
  text : Option String
  html : Option String
deriving DecidableEq

/-- The body resolution of `format_full_message`: prefer the stripped
`text`, fall back to `html_to_text(html)`, fall back to "(empty body)".
`html_to_text` builds on an external HTML parser (BeautifulSoup) and is
passed in as a function. -/
def resolveBody (htmlToText : Option String → String) (m : MailRecord) : String :=
  let t0 := pyStrip (m.text.getD "")
  let t1 := if t0 = "" then htmlToText m.html else t0
  if t1 = "" then "(empty body)" else t1

def truncMarker : String := "\n…(truncated)"

/-- `format_full_message` (src/bot.py lines 375-401).  The OTP is
extracted from the body before truncation; a body longer than 3200
characters is cut to its first 3200 characters plus the marker. -/
def format_full_message (htmlToText : Option String → String) (m : MailRecord) : String :=
  let frm := m.fromAddr.getD "unknown"
  let subj := pyOr m.subject "(no subject)"
  let created := pyOr m.createdAt ""
  let body0 := resolveBody htmlToText m
  let otp := extract_otp body0
  let body := if 3200 < body0.length then strTake body0 3200 ++ truncMarker else body0
  let otpLine :=
    match otp with
    | some code => "🔐 <b>OTP:</b> <code>" ++ code ++ "</code>\n\n"
    | none => ""
  "📩 <b>New Email</b>\n<b>From:</b> " ++ frm ++ "\n<b>Subject:</b> " ++ subj ++
    "\n<b>Date:</b> " ++ created ++ "\n\n" ++ otpLine ++ body

/-! ### Conversational controller (src/bot.py lines 415-583)

`handle_text` is embedded as a pure transition function.  The per-chat
transient mode lives in `context.user_data` as three independent boolean
flags; replies sent during one invocation are collected in order.  The
provider interaction of "new mail" (`mailtm_create_account_and_token`) is
an external HTTP call and enters as the `acct` parameter: the
(address, password, token) triple the provider would return. -/

def BTN_NEW : String := "📧 Generate new mail"
def BTN_CURRENT : String := "📌 Current mail"
def BTN_DELETE : String := "🗑️ Remove current mail"
def BTN_LIST : String := "📜 My saved mails"
def BTN_REUSE : String := "♻️ Reuse a mail"
def BTN_RENAME : String := "✏️ Rename a mail"
def BTN_DELETE_SAVED : String := "🧨 Delete saved mail"
def BTN_HELP : String := "❓ Help / Contact"
def BTN_BACK : String := "⬅️ Back to menu"

/-- The three `context.user_data` flags: reuse_mode, rename_mode,
delete_saved_mode.  A missing key is `false`. -/
structure UserData where
  reuse_mode : Bool
  rename_mode : Bool
  delete_saved_mode : Bool
deriving DecidableEq

def UserData.idle : UserData := ⟨false, false, false⟩

/-- Python `str.isdigit()`: nonempty and every character a digit. -/
def isdigitStr (s : String) : Bool :=
  !s.data.isEmpty && s.data.all Char.isDigit

/-- `int(...)` on a digit string. -/
def toNatDigits (s : String) : Nat :=
  s.data.foldl (fun n c => 10 * n + (c.toNat - 48)) 0

/-- Python `txt.split(maxsplit=1)` with the default whitespace separator:
leading whitespace is skipped, the first whitespace-free token is cut off,
and the remainder (with its own leading whitespace removed) is kept
verbatim; an empty remainder yields a one-element list. -/
def splitMax1 (s : String) : List String :=
  let l := s.data.dropWhile Char.isWhitespace
  match l with
  | [] => []
  | _ =>
    let tok := l.takeWhile (fun c => !c.isWhitespace)
    let rest := (l.dropWhile (fun c => !c.isWhitespace)).dropWhile Char.isWhitespace
    if rest.isEmpty then [String.mk tok] else [String.mk tok, String.mk rest]

/-- Python `html.escape` as used when rendering the saved-mail list. -/
def htmlEscape (s : String) : String :=
  String.join (s.data.map (fun c =>
    if c = '&' then "&amp;"
    else if c = '<' then "&lt;"
    else if c = '>' then "&gt;"
    else if c = '"' then "&quot;"
    else if c = '\'' then "&#x27;"
    else String.mk [c]))

/-- The saved-mail list reply of the `BTN_LIST` branch. -/
def renderSavedList (db : DB) (chat : Int) : String :=
  let rows := db_list_mailboxes db chat
  let activeId : Option Nat := (db_get_active_mailbox db chat).map (fun x => x.1)
  let body := (rows.take 30).map (fun m =>
    let mark := if activeId = some m.dbId then "✅" else "▫️"
    let labelTxt :=
      match m.label with
      | some l => if l = "" then "" else " — <b>" ++ htmlEscape l ++ "</b>"
      | none => ""
    mark ++ " <code>" ++ m.address ++ "</code>" ++ labelTxt ++
      "\n<b>ID:</b> <code>" ++ toString m.userSeq ++ "</code>\n")
  String.intercalate "\n"
    (["📜 <b>Your saved mails</b>\n"] ++ body ++
      ["Reuse: tap ♻️ Reuse → send ID\nRename: tap ✏️ Rename → send: ID Name\nDelete saved: tap 🧨 Delete saved → send ID"])

/-- Outcome of one `handle_text` invocation: the new user_data flags, the
new database, and the texts replied, in order. -/
structure HandleResult where
  ud : UserData
  db : DB
  replies : List String
deriving DecidableEq

/-- `create_new_mail_for_chat`: provision an account at the provider
(`acct` is the triple the provider returns), save it, make it active.
`none` as the returned address models the uncaught exception of
`db_save_mailbox` when its final id lookup finds no row, in which case the
active pointer is not touched. -/
def create_new_mail_for_chat (db : DB) (chat : Int) (acct : String × String × String)
    (now : Nat) : DB × Option String :=
  match db_save_mailbox db chat acct.1 acct.2.1 acct.2.2 now with
  | (db1, some mid) => (db_set_active_mailbox db1 chat mid now, some acct.1)
  | (db1, none) => (db1, none)

/-- The "Modes processing" block of `handle_text` (src/bot.py lines
532-583), reached when the stripped text matched neither the back token
nor `/start` nor any menu button: first a pending reuse mode, then a
pending delete-saved mode, then a pending rename mode, then the generic
fallback reply. -/
def modeStep (ud : UserData) (db : DB) (chat : Int) (txt : String) (now : Nat) : HandleResult :=
  if ud.reuse_mode then
    if isdigitStr txt then
      match db_get_mailbox_by_seq db chat (toNatDigits txt) with
      | none => ⟨ud, db, ["Invalid ID. Try again."]⟩
      | some mb =>
        ⟨{ ud with reuse_mode := false }, db_set_active_mailbox db chat mb.dbId now,
          ["✅ Reusing:\n<code>" ++ mb.address ++ "</code>"]⟩
    else ⟨ud, db, ["Send numeric ID or tap Back."]⟩
  else if ud.delete_saved_mode then
    if isdigitStr txt then
      match db_delete_saved_by_seq db chat (toNatDigits txt) with
      | (db1, false) => ⟨ud, db1, ["Invalid ID. Try again."]⟩
      | (db1, true) => ⟨{ ud with delete_saved_mode := false }, db1, ["✅ Deleted from saved list."]⟩
    else ⟨ud, db, ["Send numeric ID or tap Back."]⟩
  else if ud.rename_mode then
    match splitMax1 txt with
    | [p0, p1] =>
      if isdigitStr p0 then
        let seq := toNatDigits p0
        let name0 := pyStrip p1
        let name := if 25 < name0.length then strTake name0 25 else name0
        match db_set_label_by_seq db chat seq name with
        | (db1, false) => ⟨ud, db1, ["Invalid ID. Try again."]⟩
        | (db1, true) => ⟨{ ud with rename_mode := false }, db1, ["✅ Renamed successfully."]⟩
      else ⟨ud, db, ["Format: ID Name (example: 2 Facebook) or tap Back."]⟩
    | _ => ⟨ud, db, ["Format: ID Name (example: 2 Facebook) or tap Back."]⟩
  else
    ⟨ud, db, ["Use menu buttons 👇"]⟩

/-- `handle_text` (src/bot.py lines 415-583), as a pure transition on
(user_data, database) with the incoming text and the provider oracle. -/
def handle_text (ud : UserData) (db : DB) (chat : Int) (input : String)
    (acct : String × String × String) (now : Nat) : HandleResult :=
  let txt := pyStrip input
  if txt = BTN_BACK then
    ⟨UserData.idle, db, ["Menu ✅"]⟩
  else if pyLower txt = "/start" then
    match create_new_mail_for_chat db chat acct now with
    | (db1, some addr) =>
      ⟨ud, db1, ["Creating…", "📧 <b>Your mail:</b>\n<code>" ++ addr ++ "</code>"]⟩
    | (db1, none) => ⟨ud, db1, ["Creating…"]⟩
  else if txt = BTN_HELP then
    ⟨ud, db, ["Contact: @platoonleaderr"]⟩
  else if txt = BTN_CURRENT then
    match db_get_active_mailbox db chat with
    | none => ⟨ud, db, ["No active mail. Tap “Generate new mail”."]⟩
    | some x => ⟨ud, db, ["📌 <b>Current mail:</b>\n<code>" ++ x.2.1 ++ "</code>"]⟩
  else if txt = BTN_NEW then
    match create_new_mail_for_chat db chat acct now with
    | (db1, some addr) =>
      ⟨ud, db1, ["Creating…", "📧 <b>Your new mail:</b>\n<code>" ++ addr ++ "</code>"]⟩
    | (db1, none) => ⟨ud, db1, ["Creating…"]⟩
  else if txt = BTN_DELETE then
    match db_get_active_mailbox db chat with
    | none => ⟨ud, db, ["No active mail."]⟩
    | some _ =>
      ⟨ud, db_delete_active_mailbox_only db chat,
        ["✅ Current mail removed (saved list is still there)."]⟩
  else if txt = BTN_LIST then
    if (db_list_mailboxes db chat).isEmpty then ⟨ud, db, ["No saved mails yet."]⟩
    else ⟨ud, db, [renderSavedList db chat]⟩
  else if txt = BTN_REUSE then
    if (db_list_mailboxes db chat).isEmpty then ⟨ud, db, ["No saved mails to reuse."]⟩
    else
      ⟨{ ud with reuse_mode := true }, db,
        ["♻️ Send the <b>ID</b> you want to reuse.\nExample: <code>1</code>"]⟩
  else if txt = BTN_RENAME then
    if (db_list_mailboxes db chat).isEmpty then ⟨ud, db, ["No saved mails to rename."]⟩
    else
      ⟨{ ud with rename_mode := true }, db,
        ["✏️ Send like this:\n<code>ID Name</code>\nExample: <code>2 Facebook</code>"]⟩
  else if txt = BTN_DELETE_SAVED then
    if (db_list_mailboxes db chat).isEmpty then ⟨ud, db, ["No saved mails to delete."]⟩
    else
      ⟨{ ud with delete_saved_mode := true }, db,
        ["🧨 Send the <b>ID</b> you want to delete from saved list.\nExample: <code>3</code>"]⟩
  else modeStep ud db chat txt now

/-! ### Polling engine (src/bot.py lines 589-624)

`poll_all_chats` reads the active pairs, and for each pair looks up the
token, lists the provider messages, collects the unseen ids (the provider
returns newest-first), and walks them in reversed order, delivering and
then marking seen.  External effects enter through `PollEnv`:
`listMsgs` is `mailtm_list_messages` keyed by token (`none` models the
exception caught by the per-chat `try`), `readMsg` is
`mailtm_read_message` (`none` models a read or format failure inside the
per-message `try`), and `sendOk` tells whether `bot.send_message`
succeeds for that chat and message (false models a delivery failure
inside the per-message `try`). -/

/-- A provider message summary: only its id is consumed by the poller.
`none` models a summary without an "id" key. -/
structure MsgSummary where
  id : Option String
deriving DecidableEq

structure PollEnv where
  listMsgs : String → Option (List MsgSummary)
  readMsg : String → String → Option MailRecord
  sendOk : Int → String → Bool
  htmlToText : Option String → String

/-- One delivered chat message: destination chat, provider message id and
the formatted text that was sent. -/
structure Delivery where
  chat : Int
  mid : String
  text : String
deriving DecidableEq

/-- The `new_ids` accumulation loop: ids that are present, truthy
(non-empty) and not yet in the seen ledger, in provider (newest-first)
order. -/
def computeNewIds (db : DB) (chat : Int) (msgs : List MsgSummary) : List String :=
  msgs.foldl (fun acc m =>
    match m.id with
    | some mid => if mid ≠ "" ∧ db_is_seen db chat mid = false then acc ++ [mid] else acc
    | none => acc) []

/-- The body of the per-message `try`: read the full record, format it,
send it, then mark it seen.  A failure at any step skips the message and
leaves the ledger alone. -/
def processOne (env : PollEnv) (token : String) (chat : Int) (now : Nat)
    (st : DB × List Delivery) (mid : String) : DB × List Delivery :=
  match env.readMsg token mid with
  | none => st
  | some r =>
    let text := format_full_message env.htmlToText r
    if env.sendOk chat mid then
      (db_mark_seen st.1 chat mid now, st.2 ++ [⟨chat, mid, text⟩])
    else st

/-- The per-chat part of a poll cycle, after the token has been resolved
and the provider message list fetched. -/
def processChat (env : PollEnv) (db : DB) (chat : Int) (token : String)
    (msgs : List MsgSummary) (now : Nat) : DB × List Delivery :=
  ((computeNewIds db chat msgs).reverse).foldl (processOne env token chat now) (db, [])

/-- The per-chat step of the poll loop: resolve the token (a missing or
empty token skips the chat), list the provider messages (a listing
failure skips the chat), then run the per-chat processing. -/
def pollStep (env : PollEnv) (now : Nat) (st : DB × List Delivery) (p : Int × Nat) :
    DB × List Delivery :=
  match db_get_token st.1 p.1 p.2 with
  | none => st
  | some token =>
    if token = "" then st
    else
      match env.listMsgs token with
      | none => st
      | some msgs =>
        let r := processChat env st.1 p.1 token msgs now
        (r.1, st.2 ++ r.2)

/-- One full poll cycle over the snapshot of active (chat, mailbox) pairs. -/
def poll_all_chats (env : PollEnv) (db : DB) (now : Nat) : DB × List Delivery :=
  (db.active.map (fun a => (a.chatId, a.mailboxId))).foldl (pollStep env now) (db, [])

/-- What one chat contributes to a cycle when computed against a fixed
database snapshot: nothing when the token is missing or empty or the
provider listing fails, its per-chat deliveries otherwise. -/
def chatContribution (env : PollEnv) (db : DB) (now : Nat) (p : Int × Nat) : List Delivery :=
  match db_get_token db p.1 p.2 with
  | none => []
  | some token =>
    if token = "" then []
    else
      match env.listMsgs token with
      | none => []
      | some msgs => (processChat env db p.1 token msgs now).2

/-- The ids of the unseen batch that survive the per-message `try`:
read succeeded and delivery succeeded. -/
def deliveredOf (env : PollEnv) (token : String) (chat : Int) (ids : List String) :
    List Delivery :=
  ids.filterMap (fun mid =>
    match env.readMsg token mid with
    | none => none
    | some r =>
      if env.sendOk chat mid then
        some ⟨chat, mid, format_full_message env.htmlToText r⟩
      else none)

/-! ### Concrete instances used by the theorems below -/

/-- A database holding one saved mailbox (seq 1) for chat 0. -/
def oneBoxDb : DB := ⟨[⟨1, 0, 1, "a@x", "p", "t", none, 0⟩], 2, [], []⟩

/-- A database holding two saved mailboxes (seqs 1 and 2) for chat 0,
with mailbox 2 active. -/
def twoBoxDb : DB :=
  ⟨[⟨1, 0, 1, "a@x", "p", "t", none, 0⟩, ⟨2, 0, 2, "b@x", "p", "t2", none, 0⟩], 3, [⟨0, 2, 0⟩], []⟩

/-- A database where chat 0 has mailbox 1 (token "tok") active. -/
def pollDb : DB := ⟨[⟨1, 0, 1, "a@x", "p", "tok", none, 0⟩], 2, [⟨0, 1, 0⟩], []⟩

/-- A provider environment where listing yields [C, B, A] (newest-first)
and every read and delivery succeeds. -/
def envOk : PollEnv :=
  ⟨fun _ => some [⟨some "C"⟩, ⟨some "B"⟩, ⟨some "A"⟩],
   fun _ mid => some ⟨some "s@x", some "hi", some "now", some ("body " ++ mid), none⟩,
   fun _ _ => true,
   fun _ => ""⟩

/-- Like `envOk` but delivery of message "B" fails. -/
def envFailB : PollEnv :=
  ⟨fun _ => some [⟨some "C"⟩, ⟨some "B"⟩, ⟨some "A"⟩],
   fun _ mid => some ⟨some "s@x", some "hi", some "now", some ("body " ++ mid), none⟩,
   fun _ mid => mid != "B",
   fun _ => ""⟩

/-- An html-to-text collaborator that yields nothing. -/
def hNone : Option String → String := fun _ => ""

/-- A 3201-character body. -/
def longBody : String := String.mk (List.replicate 3201 'a')

/-- A message record whose resolved body is `longBody`. -/
def longRec : MailRecord := ⟨some "s@x", some "hi", some "d", some longBody, none⟩

/-- A creation-only history: fold `db_save_mailbox` over a list of
(address, password, token) triples for one chat. -/
def createMany (chat : Int) : DB → List (String × String × String) → DB
  | db, [] => db
  | db, r :: rs => createMany chat (db_save_mailbox db chat r.1 r.2.1 r.2.2 0).1 rs

/-- The racing interleaving of two concurrent `db_save_mailbox` calls for
the same chat in which both connections run their max(user_seq) read
before either runs its insert: both compute the same next sequence, then
the two insert-and-lookup halves run one after the other. -/
def racePhase (db : DB) (chat : Int) (a1 a2 pw tok : String) (now : Nat) :
    (DB × Option Nat) × (DB × Option Nat) :=
  let s := save_phase1 db chat
  let r1 := save_phase2 db chat s a1 pw tok now
  let r2 := save_phase2 r1.1 chat s a2 pw tok now
  (r1, r2)

/-- The stripped texts that `handle_text` treats as commands before it
looks at any pending mode: the eight menu buttons and `/start`. -/
def isCommandText (t : String) : Bool :=
  t == BTN_HELP || t == BTN_CURRENT || t == BTN_NEW || t == BTN_DELETE || t == BTN_LIST ||
  t == BTN_REUSE || t == BTN_RENAME || t == BTN_DELETE_SAVED || pyLower t == "/start"

/-- Whether, in the first pending mode the source checks
(reuse, then delete-saved, then rename), the stripped text is a payload
that actually performs the pending operation. -/
def pendingMutation (ud : UserData) (db : DB) (chat : Int) (txt : String) : Bool :=
  if ud.reuse_mode then
    isdigitStr txt && (db_get_mailbox_by_seq db chat (toNatDigits txt)).isSome
  else if ud.delete_saved_mode then
    isdigitStr txt && (db_get_mailbox_by_seq db chat (toNatDigits txt)).isSome
  else if ud.rename_mode then
    match splitMax1 txt with
    | [p0, _] => isdigitStr p0 && seqTaken db chat (toNatDigits p0)
    | _ => false
  else false

/-! ## Theorems -/

/-- Marking seen only appends to (or keeps) the ledger; observably,
a key is seen afterwards iff it was seen before or is the marked key. -/
theorem db_is_seen_mark (db : DB) (c c' : Int) (m m' : String) (t : Nat) :
    db_is_seen (db_mark_seen db c' m' t) c m
      = (db_is_seen db c m || (decide (c' = c) && decide (m' = m))) := by
  by_cases hs : db_is_seen db c' m'
  · rw [db_mark_seen, if_pos hs]
    by_cases he : c' = c ∧ m' = m
    · obtain ⟨h1, h2⟩ := he
      subst h1; subst h2
      simp [hs]
    · rcases Decidable.not_and_iff_or_not.mp he with h | h <;> simp [h]
  · rw [db_mark_seen, if_neg hs]
    unfold db_is_seen
    simp [List.any_append, List.any_cons, and_comm]

/-- C6: after `markSeen(chat, id)` the key is seen, and a second
`markSeen` for the same key is a no-op: it changes nothing in the
database (in particular it adds no duplicate ledger row), and the
operation is total, so no error is raised. -/
theorem mark_seen_idempotent (db : DB) (chat : Int) (mid : String) (t1 t2 : Nat) :
    db_is_seen (db_mark_seen db chat mid t1) chat mid = true
    ∧ db_mark_seen (db_mark_seen db chat mid t1) chat mid t2 = db_mark_seen db chat mid t1 := by
  have h1 : db_is_seen (db_mark_seen db chat mid t1) chat mid = true := by
    rw [db_is_seen_mark]; simp
  exact ⟨h1, by rw [db_mark_seen, if_pos h1]⟩

/-- C4: `deleteBySeq` returns false and changes nothing when no mailbox
with that (chat, seq) exists; otherwise it returns true, removes exactly
that mailbox row, and removes an active-pointer row exactly when it
referenced the deleted mailbox (pointers of other mailboxes and other
chats survive); the ledger and the id counter are untouched. -/
theorem delete_by_seq_spec (db : DB) (chat : Int) (seq : Nat) :
    (db_get_mailbox_by_seq db chat seq = none →
      db_delete_saved_by_seq db chat seq = (db, false))
    ∧ (∀ mb, db_get_mailbox_by_seq db chat seq = some mb →
        (db_delete_saved_by_seq db chat seq).2 = true
        ∧ mb ∉ (db_delete_saved_by_seq db chat seq).1.mailboxes
        ∧ (∀ m, m ∈ (db_delete_saved_by_seq db chat seq).1.mailboxes
            ↔ m ∈ db.mailboxes ∧ ¬ (m.chatId = chat ∧ m.dbId = mb.dbId))
        ∧ (∀ a, a ∈ (db_delete_saved_by_seq db chat seq).1.active
            ↔ a ∈ db.active ∧ ¬ (a.chatId = chat ∧ a.mailboxId = mb.dbId))
        ∧ (db_delete_saved_by_seq db chat seq).1.seen = db.seen
        ∧ (db_delete_saved_by_seq db chat seq).1.nextId = db.nextId) := by
  constructor
  · intro h
    rw [db_delete_saved_by_seq, h]
  · intro mb h
    have hpred := List.find?_some h
    simp only [decide_eq_true_eq] at hpred
    rw [db_delete_saved_by_seq, h]
    refine ⟨rfl, ?_, ?_, ?_, rfl, rfl⟩
    · intro hmem
      have h2 := (List.mem_filter.mp hmem).2
      simp at h2
      exact h2 hpred.1
    · intro m
      simp only [List.mem_filter, decide_eq_true_eq]
    · intro a
      simp only [List.mem_filter, decide_eq_true_eq]

/-- C4 at a concrete database: deleting seq 2 of `twoBoxDb` (whose active
pointer references mailbox 2) succeeds and clears the pointer. -/
theorem delete_by_seq_spec_witness :
    (db_delete_saved_by_seq twoBoxDb 0 2).2 = true
    ∧ (⟨0, 2, 0⟩ : ActiveRow) ∉ (db_delete_saved_by_seq twoBoxDb 0 2).1.active := by
  have h := (delete_by_seq_spec twoBoxDb 0 2).2 ⟨2, 0, 2, "b@x", "p", "t2", none, 0⟩ rfl
  refine ⟨h.1, ?_⟩
  intro hmem
  have := ((h.2.2.2.1 ⟨0, 2, 0⟩).mp hmem).2
  exact this ⟨rfl, rfl⟩

/-- The fold computing a maximum never goes below its starting value. -/
theorem foldl_max_init_le (l : List Nat) : ∀ a : Nat, a ≤ l.foldl max a := by
  induction l with
  | nil => intro a; exact Nat.le_refl a
  | cons x xs ih =>
    intro a
    exact Nat.le_trans (Nat.le_max_left a x) (ih (max a x))

/-- Every member of the list is bounded by the maximum fold. -/
theorem mem_le_foldl_max (l : List Nat) : ∀ (a x : Nat), x ∈ l → x ≤ l.foldl max a := by
  induction l with
  | nil => intro a x hx; cases hx
  | cons y ys ih =>
    intro a x hx
    rcases List.mem_cons.mp hx with h | h
    · subst h
      exact Nat.le_trans (Nat.le_max_right a x) (foldl_max_init_le ys (max a x))
    · exact ih (max a y) x h

/-- A sequence number is taken iff it appears among the chat's user_seq values. -/
theorem seqTaken_iff (db : DB) (chat : Int) (s : Nat) :
    seqTaken db chat s = true ↔ s ∈ chatSeqs db chat := by
  simp only [seqTaken, chatSeqs, chatRows, List.any_eq_true, List.mem_map, List.mem_filter,
    decide_eq_true_eq]
  constructor
  · rintro ⟨m, hm, h1, h2⟩
    exact ⟨m, ⟨hm, h1⟩, h2⟩
  · rintro ⟨m, ⟨hm, h1⟩, h2⟩
    exact ⟨m, hm, h1, h2⟩

/-- The sequence the source computes next is never already taken. -/
theorem maxSeq_succ_not_taken (db : DB) (chat : Int) :
    seqTaken db chat (maxSeq db chat + 1) = false := by
  by_cases h : seqTaken db chat (maxSeq db chat + 1) = true
  · exfalso
    have hmem := (seqTaken_iff db chat (maxSeq db chat + 1)).mp h
    have hle := mem_le_foldl_max (chatSeqs db chat) 0 _ hmem
    rw [show (chatSeqs db chat).foldl max 0 = maxSeq db chat from rfl] at hle
    omega
  · simpa using h

/-- With a fresh address, `db_save_mailbox` inserts a row carrying the
next sequence number and the next autoincrement id. -/
theorem save_mailbox_fresh (db : DB) (chat : Int) (addr pw tok : String) (now : Nat)
    (hA : addrTaken db chat addr = false) :
    (db_save_mailbox db chat addr pw tok now).1
      = { db with
          mailboxes := db.mailboxes ++ [⟨db.nextId, chat, maxSeq db chat + 1, addr, pw, tok, none, now⟩],
          nextId := db.nextId + 1 } := by
  unfold db_save_mailbox save_phase2 save_phase1
  simp [maxSeq_succ_not_taken, hA]

/-- Appending a row of the same chat appends its user_seq to the chat's list. -/
theorem chatSeqs_append_own (db : DB) (row : Mailbox) (chat : Int) (h : row.chatId = chat) :
    chatSeqs { db with mailboxes := db.mailboxes ++ [row], nextId := db.nextId + 1 } chat
      = chatSeqs db chat ++ [row.userSeq] := by
  simp [chatSeqs, chatRows, List.filter_append, h]

/-- The maximum over a list extended by its successor is that successor. -/
theorem maxSeq_after_append (l : List Nat) (x : Nat) (h : l.foldl max 0 ≤ x) :
    (l ++ [x]).foldl max 0 = x := by
  rw [List.foldl_append]
  simp [Nat.max_eq_right h]

/-- Creation-only histories with fresh, pairwise distinct addresses:
each step appends exactly the next sequence number. -/
theorem createMany_seqs (chat : Int) :
    ∀ (reqs : List (String × String × String)) (db : DB),
      (reqs.map (fun r => r.1)).Nodup →
      (∀ r ∈ reqs, addrTaken db chat r.1 = false) →
      chatSeqs (createMany chat db reqs) chat
        = chatSeqs db chat ++ List.range' (maxSeq db chat + 1) reqs.length := by
  intro reqs
  induction reqs with
  | nil => intro db _ _; simp [createMany]
  | cons r rs ih =>
    intro db hnd hfresh
    have hr : addrTaken db chat r.1 = false := hfresh r (List.mem_cons_self r rs)
    have hsave := save_mailbox_fresh db chat r.1 r.2.1 r.2.2 0 hr
    have hseqs : chatSeqs (db_save_mailbox db chat r.1 r.2.1 r.2.2 0).1 chat
        = chatSeqs db chat ++ [maxSeq db chat + 1] := by
      rw [hsave]
      exact chatSeqs_append_own db _ chat rfl
    have hmax : maxSeq (db_save_mailbox db chat r.1 r.2.1 r.2.2 0).1 chat
        = maxSeq db chat + 1 := by
      show (chatSeqs (db_save_mailbox db chat r.1 r.2.1 r.2.2 0).1 chat).foldl max 0 = _
      rw [hseqs]
      exact maxSeq_after_append (chatSeqs db chat) (maxSeq db chat + 1)
        (Nat.le_succ (maxSeq db chat))
    have hfresh2 : ∀ r2 ∈ rs, addrTaken (db_save_mailbox db chat r.1 r.2.1 r.2.2 0).1 chat r2.1 = false := by
      intro r2 hr2
      rw [hsave]
      show (db.mailboxes ++ [_]).any _ = false
      rw [List.any_append]
      have h1 : addrTaken db chat r2.1 = false := hfresh r2 (List.mem_cons_of_mem r hr2)
      rw [show db.mailboxes.any (fun m => decide (m.chatId = chat ∧ m.address = r2.1)) = false from h1]
      have hne : r.1 ≠ r2.1 := by
        intro he
        have hnotin := (List.nodup_cons.mp hnd).1
        have hmem : r2.1 ∈ rs.map (fun x => x.1) := List.mem_map_of_mem (fun x => x.1) hr2
        rw [← he] at hmem
        exact hnotin hmem
      simp [hne]
    have hnd2 : (rs.map (fun x => x.1)).Nodup := (List.nodup_cons.mp hnd).2
    show chatSeqs (createMany chat (db_save_mailbox db chat r.1 r.2.1 r.2.2 0).1 rs) chat = _
    rw [ih _ hnd2 hfresh2, hseqs, hmax]
    rw [List.append_assoc, List.length_cons, List.range'_succ, List.singleton_append]

/-- C1 (amended): for a chat whose history consists only of
`createMailbox` calls with pairwise distinct addresses, the assigned
`userSeq` values are exactly `1..N`, in order.  (As stated the claim is
false: the counterexample shows that `deleteBySeq` of the mailbox with
the chat's maximal `userSeq` makes that value be assigned again to a
later-created mailbox, because the next sequence is computed from the
maximum of the *surviving* rows.) -/
theorem user_seq_one_to_n (chat : Int) (reqs : List (String × String × String))
    (h : (reqs.map (fun r => r.1)).Nodup) :
    chatSeqs (createMany chat DB.empty reqs) chat = List.range' 1 reqs.length := by
  have hc := createMany_seqs chat reqs DB.empty h (by intro r _; rfl)
  simpa [DB.empty, chatSeqs, chatRows, maxSeq] using hc

/-- C1 (amended) at a concrete input: two creations from an empty store
assign sequences [1, 2]. -/
theorem user_seq_one_to_n_witness :
    chatSeqs (createMany 0 DB.empty [("a@x", "p", "t"), ("b@x", "p", "t")]) 0 = [1, 2] := by
  have h := user_seq_one_to_n 0 [("a@x", "p", "t"), ("b@x", "p", "t")] (by decide)
  exact h.trans (by decide)

/-- C1 as stated is false on the code: create (seq 1), delete it, create
again — the second creation reuses userSeq 1, so the ever-assigned set
stays {1} although two mailboxes were ever created (it is not {1, 2}),
and the deleted mailbox's userSeq is assigned again. -/
theorem user_seq_reuse_counterexample :
    chatSeqs (db_save_mailbox DB.empty 0 "a@x" "p" "t" 0).1 0 = [1]
    ∧ (db_delete_saved_by_seq (db_save_mailbox DB.empty 0 "a@x" "p" "t" 0).1 0 1).2 = true
    ∧ chatSeqs (db_save_mailbox
        (db_delete_saved_by_seq (db_save_mailbox DB.empty 0 "a@x" "p" "t" 0).1 0 1).1
        0 "b@x" "p" "t" 0).1 0 = [1] := by
  refine ⟨by decide, by decide, by decide⟩

/-- A fresh address means the by-address lookup finds nothing. -/
theorem find_addr_none (db : DB) (chat : Int) (a : String) (ha : addrTaken db chat a = false) :
    db.mailboxes.find? (fun m => decide (m.chatId = chat ∧ m.address = a)) = none := by
  rw [List.find?_eq_none]
  intro m hm
  have := List.any_eq_false.mp ha m hm
  simpa using this

/-- `save_phase2` in the conflict-free case: the row is inserted and its
fresh id returned. -/
theorem save_phase2_fresh (db : DB) (chat : Int) (s : Nat) (a pw tok : String) (now : Nat)
    (hs : seqTaken db chat s = false) (ha : addrTaken db chat a = false) :
    save_phase2 db chat s a pw tok now
      = ({ db with
            mailboxes := db.mailboxes ++ [⟨db.nextId, chat, s, a, pw, tok, none, now⟩],
            nextId := db.nextId + 1 },
          some db.nextId) := by
  simp [save_phase2, hs, ha, find_addr_none db chat a ha]
  refine ⟨⟨db.nextId, chat, s, a, pw, tok, none, now⟩, Or.inr ⟨?_, rfl⟩, rfl⟩
  intro x hx hchat
  have hx2 := List.any_eq_false.mp ha x hx
  simp [hchat] at hx2
  exact hx2

/-- `save_phase2` when the sequence is already taken and the address
absent: nothing is inserted and the final id lookup fails. -/
theorem save_phase2_conflict (db : DB) (chat : Int) (s : Nat) (a pw tok : String) (now : Nat)
    (hs : seqTaken db chat s = true) (ha : addrTaken db chat a = false) :
    save_phase2 db chat s a pw tok now = (db, none) := by
  simp only [save_phase2, hs, Bool.true_or, if_true]
  rw [find_addr_none db chat a ha]
  rfl

/-- C10 (amended): in the racing interleaving where both calls read
max(user_seq) before either inserts, the two calls never produce two
mailboxes sharing a userSeq — the second INSERT OR IGNORE is dropped by
the UNIQUE(chat_id, user_seq) constraint, so the store after the race is
exactly the store after the first insert — but the losing call is not
retried: it inserts nothing (its mailbox is silently dropped) and its id
lookup returns no row, which in the source is an uncaught `TypeError`. -/
theorem race_amended (db : DB) (chat : Int) (a1 a2 pw tok : String) (now : Nat)
    (hne : a1 ≠ a2) (h1 : addrTaken db chat a1 = false) (h2 : addrTaken db chat a2 = false) :
    (racePhase db chat a1 a2 pw tok now).1.2 = some db.nextId
    ∧ (racePhase db chat a1 a2 pw tok now).2.1 = (racePhase db chat a1 a2 pw tok now).1.1
    ∧ (racePhase db chat a1 a2 pw tok now).2.2 = none := by
  have hs1 : seqTaken db chat (save_phase1 db chat) = false := maxSeq_succ_not_taken db chat
  have hA := save_phase2_fresh db chat (save_phase1 db chat) a1 pw tok now hs1 h1
  have hdb1taken : seqTaken (save_phase2 db chat (save_phase1 db chat) a1 pw tok now).1 chat
      (save_phase1 db chat) = true := by
    rw [hA]
    simp [seqTaken, List.any_append]
  have hdb1addr : addrTaken (save_phase2 db chat (save_phase1 db chat) a1 pw tok now).1 chat
      a2 = false := by
    rw [hA]
    simp only [addrTaken, List.any_append, Bool.or_eq_false_iff]
    constructor
    · exact h2
    · simp [hne]
  have hB := save_phase2_conflict _ chat (save_phase1 db chat) a2 pw tok now hdb1taken hdb1addr
  refine ⟨?_, ?_, ?_⟩
  · show (save_phase2 db chat (save_phase1 db chat) a1 pw tok now).2 = some db.nextId
    rw [hA]
  · show (save_phase2 (save_phase2 db chat (save_phase1 db chat) a1 pw tok now).1 chat
      (save_phase1 db chat) a2 pw tok now).1
        = (save_phase2 db chat (save_phase1 db chat) a1 pw tok now).1
    rw [hB]
  · show (save_phase2 (save_phase2 db chat (save_phase1 db chat) a1 pw tok now).1 chat
      (save_phase1 db chat) a2 pw tok now).2 = none
    rw [hB]

/-- C10 (amended) at a concrete input: from the empty store the first
racing call gets id 1, the second changes nothing and crashes at its
lookup. -/
theorem race_amended_witness :
    (racePhase DB.empty 0 "a@x" "b@x" "p" "t" 0).1.2 = some 1
    ∧ (racePhase DB.empty 0 "a@x" "b@x" "p" "t" 0).2.1
        = (racePhase DB.empty 0 "a@x" "b@x" "p" "t" 0).1.1
    ∧ (racePhase DB.empty 0 "a@x" "b@x" "p" "t" 0).2.2 = none :=
  race_amended DB.empty 0 "a@x" "b@x" "p" "t" 0 (by decide) (by decide) (by decide)

/-- C10 as stated is false on the code: in the racing interleaving the
second call inserts nothing (one mailbox remains, so no userSeq is
duplicated) and its id lookup yields no row — the call crashes instead of
retrying with a fresh sequence, and its mailbox is silently dropped. -/
theorem race_counterexample :
    (racePhase DB.empty 0 "a@x" "b@x" "p" "t" 0).2.2 = none
    ∧ (racePhase DB.empty 0 "a@x" "b@x" "p" "t" 0).2.1.mailboxes.length = 1 := by
  refine ⟨by decide, by decide⟩

/-- When the stripped text is neither the back token nor any command,
`handle_text` falls through to the mode-processing block. -/
theorem handle_text_not_command (ud : UserData) (db : DB) (chat : Int) (input : String)
    (acct : String × String × String) (now : Nat)
    (hback : pyStrip input ≠ BTN_BACK)
    (hcmd : isCommandText (pyStrip input) = false) :
    handle_text ud db chat input acct now = modeStep ud db chat (pyStrip input) now := by
  simp only [isCommandText, Bool.or_eq_false_iff, beq_eq_false_iff_ne] at hcmd
  obtain ⟨⟨⟨⟨⟨⟨⟨⟨hH, hC⟩, hN⟩, hD⟩, hL⟩, hR⟩, hRn⟩, hDs⟩, hS⟩ := hcmd
  simp only [handle_text]
  rw [if_neg hback, if_neg hS, if_neg hH, if_neg hC, if_neg hN, if_neg hD, if_neg hL,
    if_neg hR, if_neg hRn, if_neg hDs]

/-- C2 (amended): while a reuse/rename/delete mode is pending, any reply
that is not the back token, not a menu command or /start, and not a
payload that performs the first pending operation the source checks,
leaves the mode flags and the store unchanged and yields a re-prompt (or
invalid-id) reply.  (As stated the claim is false: the counterexample
shows that menu commands are honored immediately even while a mode is
pending — the source checks the buttons before the mode flags — and the
pending flag survives the command.) -/
theorem pending_mode_keeps_state (ud : UserData) (db : DB) (chat : Int) (input : String)
    (acct : String × String × String) (now : Nat)
    (hpend : ud.reuse_mode = true ∨ ud.delete_saved_mode = true ∨ ud.rename_mode = true)
    (hback : pyStrip input ≠ BTN_BACK)
    (hcmd : isCommandText (pyStrip input) = false)
    (hmut : pendingMutation ud db chat (pyStrip input) = false) :
    (handle_text ud db chat input acct now).ud = ud
    ∧ (handle_text ud db chat input acct now).db = db
    ∧ ((handle_text ud db chat input acct now).replies = ["Invalid ID. Try again."]
      ∨ (handle_text ud db chat input acct now).replies = ["Send numeric ID or tap Back."]
      ∨ (handle_text ud db chat input acct now).replies
          = ["Format: ID Name (example: 2 Facebook) or tap Back."]) := by
  rw [handle_text_not_command ud db chat input acct now hback hcmd]
  obtain ⟨r, rn, ds⟩ := ud
  cases r with
  | true =>
    by_cases hd : isdigitStr (pyStrip input) = true
    · have hns : db_get_mailbox_by_seq db chat (toNatDigits (pyStrip input)) = none := by
        rcases ho : db_get_mailbox_by_seq db chat (toNatDigits (pyStrip input)) with _ | mb
        · rfl
        · exfalso
          simp only [pendingMutation] at hmut
          simp [hd, ho] at hmut
      simp [modeStep, hd, hns]
    · simp [modeStep, hd]
  | false =>
    cases ds with
    | true =>
      by_cases hd : isdigitStr (pyStrip input) = true
      · have hns : db_get_mailbox_by_seq db chat (toNatDigits (pyStrip input)) = none := by
          rcases ho : db_get_mailbox_by_seq db chat (toNatDigits (pyStrip input)) with _ | mb
          · rfl
          · exfalso
            simp only [pendingMutation] at hmut
            simp [hd, ho] at hmut
        have hdel : db_delete_saved_by_seq db chat (toNatDigits (pyStrip input)) = (db, false) := by
          simp [db_delete_saved_by_seq, hns]
        simp [modeStep, hd, hdel]
      · simp [modeStep, hd]
    | false =>
      cases rn with
      | false => simp at hpend
      | true =>
        rcases hsp : splitMax1 (pyStrip input) with _ | ⟨p0, tail⟩
        · simp [modeStep, hsp]
        · rcases tail with _ | ⟨p1, rest⟩
          · simp [modeStep, hsp]
          · rcases rest with _ | ⟨q, qs⟩
            · by_cases hd : isdigitStr p0 = true
              · have hseq : seqTaken db chat (toNatDigits p0) = false := by
                  simp only [pendingMutation] at hmut
                  simp [hsp, hd] at hmut
                  exact hmut
                unfold seqTaken at hseq
                have hlab : ∀ lab : String,
                    db_set_label_by_seq db chat (toNatDigits p0) lab = (db, false) := by
                  intro lab
                  have hcond : ¬ ((db.mailboxes.any fun m =>
                      decide (m.chatId = chat ∧ m.userSeq = toNatDigits p0)) = true) := by
                    rw [hseq]
                    exact Bool.false_ne_true
                  unfold db_set_label_by_seq
                  rw [if_neg hcond]
                simp [modeStep, hsp, hd, hlab]
              · simp [modeStep, hsp, hd]
            · simp [modeStep, hsp]

/-- C2 (amended) at a concrete input: with a reuse mode pending, the
unrecognized reply "hello" changes nothing and re-prompts. -/
theorem pending_mode_keeps_state_witness :
    (handle_text ⟨true, false, false⟩ oneBoxDb 0 "hello" ("x@y", "p", "t") 0).ud
        = (⟨true, false, false⟩ : UserData)
    ∧ (handle_text ⟨true, false, false⟩ oneBoxDb 0 "hello" ("x@y", "p", "t") 0).db = oneBoxDb
    ∧ ((handle_text ⟨true, false, false⟩ oneBoxDb 0 "hello" ("x@y", "p", "t") 0).replies
          = ["Invalid ID. Try again."]
      ∨ (handle_text ⟨true, false, false⟩ oneBoxDb 0 "hello" ("x@y", "p", "t") 0).replies
          = ["Send numeric ID or tap Back."]
      ∨ (handle_text ⟨true, false, false⟩ oneBoxDb 0 "hello" ("x@y", "p", "t") 0).replies
          = ["Format: ID Name (example: 2 Facebook) or tap Back."]) :=
  pending_mode_keeps_state ⟨true, false, false⟩ oneBoxDb 0 "hello" ("x@y", "p", "t") 0
    (Or.inl rfl) (by decide) (by decide) (by decide)

/-- C2 as stated is false on the code: with the reuse mode pending, the
"Generate new mail" menu command is executed immediately — a mailbox is
created and the store mutates — and the pending mode flag is left set,
although no back token ever cleared it. -/
theorem menu_during_mode_counterexample :
    (handle_text ⟨true, false, false⟩ oneBoxDb 0 BTN_NEW ("b@x", "pw", "tk") 5).ud.reuse_mode
        = true
    ∧ (handle_text ⟨true, false, false⟩ oneBoxDb 0 BTN_NEW ("b@x", "pw", "tk") 5).db.mailboxes.length = 2
    ∧ (handle_text ⟨true, false, false⟩ oneBoxDb 0 BTN_NEW ("b@x", "pw", "tk") 5).db ≠ oneBoxDb :=
  ⟨by decide, by decide, by decide⟩

/-- C9: in the rename mode (and no other pending mode, since the source
checks reuse and delete-saved first), an input that splits into an
integer id and a non-empty remainder sets the label of the mailbox with
that userSeq to the remainder stripped and truncated to 25 characters and
clears the mode; a non-existent seq yields failure, no mutation, and the
mode is kept; an input not matching the id-plus-name format re-prompts
with mode and store unchanged. -/
theorem rename_contract (db : DB) (chat : Int) (input : String)
    (acct : String × String × String) (now : Nat)
    (hback : pyStrip input ≠ BTN_BACK)
    (hcmd : isCommandText (pyStrip input) = false) :
    (∀ p0 p1, splitMax1 (pyStrip input) = [p0, p1] → isdigitStr p0 = true →
      seqTaken db chat (toNatDigits p0) = true →
      (handle_text ⟨false, true, false⟩ db chat input acct now).ud
          = (⟨false, false, false⟩ : UserData)
      ∧ (handle_text ⟨false, true, false⟩ db chat input acct now).db.mailboxes
          = db.mailboxes.map (fun m =>
              if m.chatId = chat ∧ m.userSeq = toNatDigits p0 then
                { m with label := some (if 25 < (pyStrip p1).length
                    then strTake (pyStrip p1) 25 else pyStrip p1) }
              else m)
      ∧ (handle_text ⟨false, true, false⟩ db chat input acct now).replies
          = ["✅ Renamed successfully."])
    ∧ (∀ p0 p1, splitMax1 (pyStrip input) = [p0, p1] → isdigitStr p0 = true →
      seqTaken db chat (toNatDigits p0) = false →
      handle_text ⟨false, true, false⟩ db chat input acct now
        = ⟨⟨false, true, false⟩, db, ["Invalid ID. Try again."]⟩)
    ∧ ((∀ p0 p1, splitMax1 (pyStrip input) = [p0, p1] → isdigitStr p0 = false) →
      handle_text ⟨false, true, false⟩ db chat input acct now
        = ⟨⟨false, true, false⟩, db, ["Format: ID Name (example: 2 Facebook) or tap Back."]⟩) := by
  rw [handle_text_not_command _ db chat input acct now hback hcmd]
  refine ⟨?_, ?_, ?_⟩
  · intro p0 p1 hsp hd hseq
    unfold seqTaken at hseq
    have hlab : ∀ lab : String, db_set_label_by_seq db chat (toNatDigits p0) lab
        = ({ db with mailboxes := db.mailboxes.map (fun m =>
              if m.chatId = chat ∧ m.userSeq = toNatDigits p0 then
                { m with label := some lab } else m) }, true) := by
      intro lab
      unfold db_set_label_by_seq
      rw [if_pos hseq]
    simp [modeStep, hsp, hd, hlab]
  · intro p0 p1 hsp hd hseq
    unfold seqTaken at hseq
    have hcond : ¬ ((db.mailboxes.any fun m =>
        decide (m.chatId = chat ∧ m.userSeq = toNatDigits p0)) = true) := by
      rw [hseq]
      exact Bool.false_ne_true
    have hlab : ∀ lab : String,
        db_set_label_by_seq db chat (toNatDigits p0) lab = (db, false) := by
      intro lab
      unfold db_set_label_by_seq
      rw [if_neg hcond]
    simp [modeStep, hsp, hd, hlab]
  · intro h
    rcases hsp : splitMax1 (pyStrip input) with _ | ⟨p0, tail⟩
    · simp [modeStep, hsp]
    · rcases tail with _ | ⟨p1, rest⟩
      · simp [modeStep, hsp]
      · rcases rest with _ | ⟨q, qs⟩
        · have hd := h p0 p1 hsp
          simp [modeStep, hsp, hd]
        · simp [modeStep, hsp]

/-- C9 at the spec's concrete input: in rename mode, "2 Work Mail" on a
store holding seqs 1 and 2 relabels the seq-2 mailbox to "Work Mail" and
returns the mode to idle. -/
theorem rename_contract_witness :
    (handle_text ⟨false, true, false⟩ twoBoxDb 0 "2 Work Mail" ("", "", "") 0).ud
        = (⟨false, false, false⟩ : UserData)
    ∧ (handle_text ⟨false, true, false⟩ twoBoxDb 0 "2 Work Mail" ("", "", "") 0).db.mailboxes
        = twoBoxDb.mailboxes.map (fun m =>
            if m.chatId = 0 ∧ m.userSeq = toNatDigits "2" then
              { m with label := some (if 25 < (pyStrip "Work Mail").length
                  then strTake (pyStrip "Work Mail") 25 else pyStrip "Work Mail") }
            else m)
    ∧ (handle_text ⟨false, true, false⟩ twoBoxDb 0 "2 Work Mail" ("", "", "") 0).replies
        = ["✅ Renamed successfully."] :=
  (rename_contract twoBoxDb 0 "2 Work Mail" ("", "", "") 0 (by decide) (by decide)).1
    "2" "Work Mail" (by decide) (by decide) (by decide)

/-- Marking seen touches no table other than the ledger. -/
theorem db_mark_seen_frame (db : DB) (c : Int) (m : String) (t : Nat) :
    (db_mark_seen db c m t).mailboxes = db.mailboxes
    ∧ (db_mark_seen db c m t).active = db.active
    ∧ (db_mark_seen db c m t).nextId = db.nextId := by
  unfold db_mark_seen
  split <;> exact ⟨rfl, rfl, rfl⟩

/-- The `new_ids` loop is the filter of present, non-empty, unseen ids. -/
theorem computeNewIds_eq (db : DB) (chat : Int) (msgs : List MsgSummary) :
    computeNewIds db chat msgs = msgs.filterMap (fun ms =>
      match ms.id with
      | some mid => if mid ≠ "" ∧ db_is_seen db chat mid = false then some mid else none
      | none => none) := by
  suffices h : ∀ acc, msgs.foldl (fun acc m =>
      match m.id with
      | some mid => if mid ≠ "" ∧ db_is_seen db chat mid = false then acc ++ [mid] else acc
      | none => acc) acc = acc ++ msgs.filterMap (fun ms =>
        match ms.id with
        | some mid => if mid ≠ "" ∧ db_is_seen db chat mid = false then some mid else none
        | none => none) by
    simpa [computeNewIds] using h []
  induction msgs with
  | nil => intro acc; simp
  | cons m ms ih =>
    intro acc
    rcases hm : m.id with _ | mid
    · simp [hm, ih]
    · by_cases hc : mid ≠ "" ∧ db_is_seen db chat mid = false
      · simp [hm, hc, ih]
      · simp [hm, hc, ih]

/-- The unseen-id computation only looks at the ledger of its own chat. -/
theorem computeNewIds_congr (db1 db2 : DB) (chat : Int) (msgs : List MsgSummary)
    (h : ∀ m, db_is_seen db1 chat m = db_is_seen db2 chat m) :
    computeNewIds db1 chat msgs = computeNewIds db2 chat msgs := by
  rw [computeNewIds_eq, computeNewIds_eq]
  have hf : (fun ms : MsgSummary =>
      match ms.id with
      | some mid => if mid ≠ "" ∧ db_is_seen db1 chat mid = false then some mid else none
      | none => none)
    = (fun ms : MsgSummary =>
      match ms.id with
      | some mid => if mid ≠ "" ∧ db_is_seen db2 chat mid = false then some mid else none
      | none => none) := by
    funext ms
    rcases ms.id with _ | mid
    · rfl
    · simp only [h mid]
  rw [hf]

/-- The deliveries accumulated by the per-message loop are exactly the
ids whose read and send both succeed, in order. -/
theorem foldl_processOne_snd (env : PollEnv) (token : String) (chat : Int) (now : Nat) :
    ∀ (ids : List String) (st : DB × List Delivery),
      (ids.foldl (processOne env token chat now) st).2
        = st.2 ++ deliveredOf env token chat ids := by
  intro ids
  induction ids with
  | nil => intro st; simp [deliveredOf]
  | cons i is ih =>
    intro st
    rw [List.foldl_cons, ih]
    unfold processOne deliveredOf
    rcases hr : env.readMsg token i with _ | r
    · simp [hr]
    · by_cases hs : env.sendOk chat i = true
      · simp [hr, hs]
      · simp [hr, hs]

/-- The per-message loop touches no table other than the ledger. -/
theorem foldl_processOne_frame (env : PollEnv) (token : String) (chat : Int) (now : Nat) :
    ∀ (ids : List String) (st : DB × List Delivery),
      (ids.foldl (processOne env token chat now) st).1.mailboxes = st.1.mailboxes
      ∧ (ids.foldl (processOne env token chat now) st).1.active = st.1.active
      ∧ (ids.foldl (processOne env token chat now) st).1.nextId = st.1.nextId := by
  intro ids
  induction ids with
  | nil => intro st; exact ⟨rfl, rfl, rfl⟩
  | cons i is ih =>
    intro st
    rw [List.foldl_cons]
    have hstep : (processOne env token chat now st i).1.mailboxes = st.1.mailboxes
        ∧ (processOne env token chat now st i).1.active = st.1.active
        ∧ (processOne env token chat now st i).1.nextId = st.1.nextId := by
      unfold processOne
      rcases hr : env.readMsg token i with _ | r
      · exact ⟨rfl, rfl, rfl⟩
      · by_cases hs : env.sendOk chat i = true
        · have hfr := db_mark_seen_frame st.1 chat i now
          simp [hr, hs, hfr.1, hfr.2.1, hfr.2.2]
        · simp [hr, hs]
    obtain ⟨h1, h2, h3⟩ := ih (processOne env token chat now st i)
    exact ⟨h1.trans hstep.1, h2.trans hstep.2.1, h3.trans hstep.2.2⟩

/-- The per-message loop never marks anything seen for another chat. -/
theorem foldl_processOne_seen_other (env : PollEnv) (token : String) (chat : Int) (now : Nat) :
    ∀ (ids : List String) (st : DB × List Delivery) (c : Int) (m : String), c ≠ chat →
      db_is_seen (ids.foldl (processOne env token chat now) st).1 c m
        = db_is_seen st.1 c m := by
  intro ids
  induction ids with
  | nil => intro st c m _; rfl
  | cons i is ih =>
    intro st c m hne
    rw [List.foldl_cons, ih _ c m hne]
    unfold processOne
    rcases hr : env.readMsg token i with _ | r
    · rfl
    · by_cases hs : env.sendOk chat i = true
      · have hmk := db_is_seen_mark st.1 c chat m i now
        have hcc : decide (chat = c) = false := by
          simp only [decide_eq_false_iff_not]
          exact fun h => hne h.symm
        simp [hr, hs, hmk, hcc]
      · simp [hr, hs]

/-- For the chat being processed, a key is seen after the per-message
loop iff it was seen before or some id of the batch equals it and both
its read and its delivery succeeded. -/
theorem foldl_processOne_seen_self (env : PollEnv) (token : String) (chat : Int) (now : Nat) :
    ∀ (ids : List String) (st : DB × List Delivery) (m : String),
      (db_is_seen (ids.foldl (processOne env token chat now) st).1 chat m = true
        ↔ (db_is_seen st.1 chat m = true
            ∨ ids.any (fun i =>
                decide (i = m) && (env.readMsg token i).isSome && env.sendOk chat i) = true)) := by
  intro ids
  induction ids with
  | nil => intro st m; simp
  | cons i is ih =>
    intro st m
    rw [List.foldl_cons, ih]
    unfold processOne
    rcases hr : env.readMsg token i with _ | r
    · simp only [hr, List.any_cons, Option.isSome_none, Bool.and_false, Bool.false_and,
        Bool.false_or]
    · by_cases hs : env.sendOk chat i = true
      · have hmk := db_is_seen_mark st.1 chat chat m i now
        simp only [hr, hs, if_true, hmk, List.any_cons, Option.isSome_some, Bool.and_true,
          Bool.true_and, Bool.or_eq_true, decide_eq_true_eq, List.any_eq_true, decide_True]
        tauto
      · have hs2 : env.sendOk chat i = false := by
          cases hsv : env.sendOk chat i
          · rfl
          · exact absurd hsv hs
        simp only [hr, hs2, Bool.false_eq_true, if_false, List.any_cons, Option.isSome_some,
          Bool.and_true, Bool.and_false, Bool.false_or]

/-- Membership in the delivered batch, by message id. -/
theorem mem_deliveredOf_iff (env : PollEnv) (token : String) (chat : Int) (m : String) :
    ∀ (ids : List String),
      (m ∈ (deliveredOf env token chat ids).map Delivery.mid
        ↔ ids.any (fun i =>
            decide (i = m) && (env.readMsg token i).isSome && env.sendOk chat i) = true) := by
  intro ids
  induction ids with
  | nil => simp [deliveredOf]
  | cons i is ih =>
    unfold deliveredOf at ih ⊢
    rcases hr : env.readMsg token i with _ | r
    · simp only [List.filterMap_cons, hr, List.any_cons, Option.isSome_none, Bool.and_false,
        Bool.false_and, Bool.false_or]
      exact ih
    · by_cases hs : env.sendOk chat i = true
      · simp only [List.filterMap_cons, hr, hs, if_true, List.map_cons, List.mem_cons,
          List.any_cons, Option.isSome_some, Bool.and_true, Bool.true_and, Bool.or_eq_true,
          decide_eq_true_eq]
        constructor
        · rintro (h | h)
          · exact Or.inl h.symm
          · exact Or.inr (ih.mp h)
        · rintro (h | h)
          · exact Or.inl h.symm
          · exact Or.inr (ih.mpr h)
      · have hs2 : env.sendOk chat i = false := by
          cases hsv : env.sendOk chat i
          · rfl
          · exact absurd hsv hs
        simp only [List.filterMap_cons, hr, hs2, Bool.false_eq_true, if_false, List.any_cons,
          Option.isSome_some, Bool.and_true, Bool.and_false, Bool.false_or]
        exact ih

/-- The token lookup depends only on the mailboxes table. -/
theorem db_get_token_congr (db1 db2 : DB) (chat : Int) (mid : Nat)
    (h : db1.mailboxes = db2.mailboxes) :
    db_get_token db1 chat mid = db_get_token db2 chat mid := by
  unfold db_get_token
  rw [h]

/-- Per-chat processing touches neither the mailboxes nor the pointers. -/
theorem processChat_frame (env : PollEnv) (db : DB) (chat : Int) (token : String)
    (msgs : List MsgSummary) (now : Nat) :
    (processChat env db chat token msgs now).1.mailboxes = db.mailboxes
    ∧ (processChat env db chat token msgs now).1.active = db.active := by
  have h := foldl_processOne_frame env token chat now
    ((computeNewIds db chat msgs).reverse) (db, [])
  exact ⟨h.1, h.2.1⟩

/-- Per-chat processing leaves the seen ledger of every other chat alone. -/
theorem processChat_seen_other (env : PollEnv) (db : DB) (chat : Int) (token : String)
    (msgs : List MsgSummary) (now : Nat) (c : Int) (m : String) (h : c ≠ chat) :
    db_is_seen (processChat env db chat token msgs now).1 c m = db_is_seen db c m :=
  foldl_processOne_seen_other env token chat now _ (db, []) c m h

/-- The poll fold over the remaining active pairs, against a state that
agrees with the starting snapshot on the mailboxes and on the seen
ledgers of those chats, produces exactly the concatenation of the
snapshot contributions. -/
theorem poll_fold_flatten (env : PollEnv) (db : DB) (now : Nat) :
    ∀ (ps : List (Int × Nat)) (st : DB × List Delivery),
      st.1.mailboxes = db.mailboxes →
      (∀ p ∈ ps, ∀ m, db_is_seen st.1 p.1 m = db_is_seen db p.1 m) →
      (ps.map Prod.fst).Nodup →
      (ps.foldl (pollStep env now) st).2
        = st.2 ++ (ps.map (chatContribution env db now)).flatten := by
  intro ps
  induction ps with
  | nil => intro st _ _ _; simp
  | cons p ps ih =>
    intro st hmail hseen hnd
    rw [List.foldl_cons, List.map_cons, List.flatten_cons]
    have htok : db_get_token st.1 p.1 p.2 = db_get_token db p.1 p.2 :=
      db_get_token_congr _ _ _ _ hmail
    have hseentl : ∀ q ∈ ps, ∀ m, db_is_seen st.1 q.1 m = db_is_seen db q.1 m :=
      fun q hq m => hseen q (List.mem_cons_of_mem p hq) m
    have hndtl : (ps.map Prod.fst).Nodup := (List.nodup_cons.mp hnd).2
    rcases ht : db_get_token db p.1 p.2 with _ | token
    · have hstep : pollStep env now st p = st := by
        unfold pollStep
        rw [htok, ht]
      have hcontrib : chatContribution env db now p = [] := by
        unfold chatContribution
        rw [ht]
      rw [hstep, hcontrib, ih st hmail hseentl hndtl]
      simp
    · by_cases hemp : token = ""
      · have hstep : pollStep env now st p = st := by
          unfold pollStep
          rw [htok, ht]
          dsimp only
          rw [if_pos hemp]
        have hcontrib : chatContribution env db now p = [] := by
          unfold chatContribution
          rw [ht]
          dsimp only
          rw [if_pos hemp]
        rw [hstep, hcontrib, ih st hmail hseentl hndtl]
        simp
      · rcases hl : env.listMsgs token with _ | msgs
        · have hstep : pollStep env now st p = st := by
            unfold pollStep
            rw [htok, ht]
            dsimp only
            rw [if_neg hemp, hl]
          have hcontrib : chatContribution env db now p = [] := by
            unfold chatContribution
            rw [ht]
            dsimp only
            rw [if_neg hemp, hl]
          rw [hstep, hcontrib, ih st hmail hseentl hndtl]
          simp
        · have hstep : pollStep env now st p
              = ((processChat env st.1 p.1 token msgs now).1,
                 st.2 ++ (processChat env st.1 p.1 token msgs now).2) := by
            unfold pollStep
            rw [htok, ht]
            dsimp only
            rw [if_neg hemp, hl]
          have hd2 : (processChat env st.1 p.1 token msgs now).2
              = chatContribution env db now p := by
            unfold chatContribution
            rw [ht]
            dsimp only
            rw [if_neg hemp, hl]
            dsimp only
            unfold processChat
            rw [foldl_processOne_snd, foldl_processOne_snd]
            rw [computeNewIds_congr st.1 db p.1 msgs
              (fun m => hseen p (List.mem_cons_self p ps) m)]
          have hmail2 : (processChat env st.1 p.1 token msgs now).1.mailboxes
              = db.mailboxes := by
            rw [(processChat_frame env st.1 p.1 token msgs now).1, hmail]
          have hseen2 : ∀ q ∈ ps, ∀ m,
              db_is_seen (processChat env st.1 p.1 token msgs now).1 q.1 m
                = db_is_seen db q.1 m := by
            intro q hq m
            have hqne : q.1 ≠ p.1 := by
              intro he
              have hnotin := (List.nodup_cons.mp hnd).1
              have hmem : q.1 ∈ ps.map Prod.fst := List.mem_map_of_mem Prod.fst hq
              rw [he] at hmem
              exact hnotin hmem
            rw [processChat_seen_other env st.1 p.1 token msgs now q.1 m hqne]
            exact hseen q (List.mem_cons_of_mem p hq) m
          rw [hstep]
          rw [ih ((processChat env st.1 p.1 token msgs now).1,
              st.2 ++ (processChat env st.1 p.1 token msgs now).2) hmail2 hseen2 hndtl]
          rw [hd2, List.append_assoc]

/-- C3: in a poll cycle, when every read and delivery succeeds, the ids
delivered to a chat are exactly the subset of provider message ids not
yet in the seen ledger, reversed — i.e. chronological oldest-first given
the provider's newest-first order; in particular with provider list
[C, B, A] all unseen, the delivery order is A, B, C. -/
theorem poll_oldest_first :
    (∀ (env : PollEnv) (db : DB) (chat : Int) (token : String) (msgs : List MsgSummary)
        (now : Nat),
      (∀ mid, (env.readMsg token mid).isSome = true) →
      (∀ mid, env.sendOk chat mid = true) →
      (processChat env db chat token msgs now).2.map Delivery.mid
        = (msgs.filterMap (fun ms =>
            match ms.id with
            | some mid => if mid ≠ "" ∧ db_is_seen db chat mid = false then some mid else none
            | none => none)).reverse)
    ∧ (poll_all_chats envOk pollDb 9).2.map Delivery.mid = ["A", "B", "C"] := by
  constructor
  · intro env db chat token msgs now hread hsend
    unfold processChat
    rw [foldl_processOne_snd, ← computeNewIds_eq]
    have hall : ∀ ids : List String,
        (deliveredOf env token chat ids).map Delivery.mid = ids := by
      intro ids
      induction ids with
      | nil => rfl
      | cons i is ih2 =>
        unfold deliveredOf at ih2 ⊢
        rcases hr : env.readMsg token i with _ | r
        · have hcon := hread i
          rw [hr] at hcon
          simp at hcon
        · simp [List.filterMap_cons, hr, hsend i, ih2]
    simp [hall]
  · decide

/-- C3 at a concrete input, via the general theorem: all-success
environment, messages [C, B, A] newest-first. -/
theorem poll_oldest_first_witness :
    (processChat envOk pollDb 0 "tok" [⟨some "C"⟩, ⟨some "B"⟩, ⟨some "A"⟩] 9).2.map Delivery.mid
      = (([⟨some "C"⟩, ⟨some "B"⟩, ⟨some "A"⟩] : List MsgSummary).filterMap (fun ms =>
          match ms.id with
          | some mid => if mid ≠ "" ∧ db_is_seen pollDb 0 mid = false then some mid else none
          | none => none)).reverse :=
  poll_oldest_first.1 envOk pollDb 0 "tok" [⟨some "C"⟩, ⟨some "B"⟩, ⟨some "A"⟩] 9
    (fun _ => rfl) (fun _ => rfl)

/-- C5: a read/format or delivery failure is confined to its message and
its chat.  (a) The deliveries of one chat's batch are exactly the
successful subset, in order, of the reversed unseen ids — a failing
message is skipped while the rest of the batch is still processed.
(b) A message id is seen after the batch iff it was seen before or was
actually delivered in this cycle — a failed message is not marked seen,
and a message is marked seen only after its delivery succeeded.
(c) The ledger of every other chat is untouched.  (d) With pairwise
distinct active chats, the whole cycle equals the concatenation of the
per-chat contributions computed against the cycle's starting snapshot,
so one chat's failure (an empty contribution) does not affect the rest. -/
theorem poll_error_isolation :
    (∀ (env : PollEnv) (db : DB) (chat : Int) (token : String) (msgs : List MsgSummary)
        (now : Nat),
      (processChat env db chat token msgs now).2
        = deliveredOf env token chat ((computeNewIds db chat msgs).reverse))
    ∧ (∀ (env : PollEnv) (db : DB) (chat : Int) (token : String) (msgs : List MsgSummary)
        (now : Nat) (m : String),
      db_is_seen (processChat env db chat token msgs now).1 chat m = true
        ↔ (db_is_seen db chat m = true
            ∨ m ∈ (processChat env db chat token msgs now).2.map Delivery.mid))
    ∧ (∀ (env : PollEnv) (db : DB) (chat : Int) (token : String) (msgs : List MsgSummary)
        (now : Nat) (c : Int) (m : String), c ≠ chat →
      db_is_seen (processChat env db chat token msgs now).1 c m = db_is_seen db c m)
    ∧ (∀ (env : PollEnv) (db : DB) (now : Nat),
      (db.active.map ActiveRow.chatId).Nodup →
      (poll_all_chats env db now).2
        = ((db.active.map (fun a => (a.chatId, a.mailboxId))).map
            (chatContribution env db now)).flatten) := by
  refine ⟨?_, ?_, ?_, ?_⟩
  · intro env db chat token msgs now
    unfold processChat
    rw [foldl_processOne_snd]
    simp
  · intro env db chat token msgs now m
    have h1 := foldl_processOne_seen_self env token chat now
      ((computeNewIds db chat msgs).reverse) (db, []) m
    unfold processChat
    rw [h1, foldl_processOne_snd]
    simp only [List.nil_append, mem_deliveredOf_iff]
  · intro env db chat token msgs now c m h
    exact processChat_seen_other env db chat token msgs now c m h
  · intro env db now hnd
    have hnd2 : ((db.active.map (fun a => (a.chatId, a.mailboxId))).map Prod.fst).Nodup := by
      rw [List.map_map]
      exact hnd
    unfold poll_all_chats
    rw [poll_fold_flatten env db now (db.active.map (fun a => (a.chatId, a.mailboxId)))
      (db, []) rfl (fun p hp m => rfl) hnd2]
    simp

/-- C5 at concrete inputs, via the general theorem: the cycle over the
single active chat decomposes into its snapshot contribution, and the
batch of chat 0 leaves chat 1's ledger unchanged. -/
theorem poll_error_isolation_witness :
    ((poll_all_chats envFailB pollDb 9).2
      = ((pollDb.active.map (fun a => (a.chatId, a.mailboxId))).map
          (chatContribution envFailB pollDb 9)).flatten)
    ∧ db_is_seen (processChat envFailB pollDb 0 "tok"
        [⟨some "C"⟩, ⟨some "B"⟩, ⟨some "A"⟩] 9).1 1 "A" = db_is_seen pollDb 1 "A" :=
  ⟨poll_error_isolation.2.2.2 envFailB pollDb 9 (by decide),
   poll_error_isolation.2.2.1 envFailB pollDb 0 "tok"
     [⟨some "C"⟩, ⟨some "B"⟩, ⟨some "A"⟩] 9 1 "A" (by decide)⟩

/-- `takeExact k` succeeds exactly when the leading digit run has at
least `k` characters, and then yields the first `k` characters. -/
theorem takeExact_eq : ∀ (k : Nat) (s : List Char),
    takeExact k s = if k ≤ (s.takeWhile Char.isDigit).length
      then some (s.take k, s.drop k) else none := by
  intro k
  induction k with
  | zero => intro s; simp [takeExact]
  | succ k ih =>
    intro s
    rcases s with _ | ⟨c, rest⟩
    · simp [takeExact]
    · by_cases hc : c.isDigit = true
      · rw [List.takeWhile_cons_of_pos hc]
        simp only [takeExact, hc, if_true, ih rest, List.length_cons]
        by_cases hk : k ≤ (rest.takeWhile Char.isDigit).length
        · rw [if_pos hk, if_pos (by omega)]
          rfl
        · rw [if_neg hk, if_neg (by omega)]
      · rw [List.takeWhile_cons_of_neg hc]
        simp [takeExact, hc]

/-- Given at most the leading run is consumed, the lookahead succeeds
exactly at the end of the run. -/
theorem lookahead_drop : ∀ (s : List Char) (k : Nat),
    k ≤ (s.takeWhile Char.isDigit).length →
    (lookaheadOk (s.drop k) = true ↔ k = (s.takeWhile Char.isDigit).length) := by
  intro s
  induction s with
  | nil => intro k hk; simp at hk; simp [hk, lookaheadOk]
  | cons c rest ih =>
    intro k hk
    rcases k with _ | k
    · by_cases hc : c.isDigit = true
      · rw [List.takeWhile_cons_of_pos hc] at *
        simp [lookaheadOk, hc]
      · rw [List.takeWhile_cons_of_neg hc] at *
        simp [lookaheadOk, hc]
    · by_cases hc : c.isDigit = true
      · rw [List.takeWhile_cons_of_pos hc] at *
        simp only [List.length_cons] at hk
        have hk2 : k ≤ (rest.takeWhile Char.isDigit).length := by omega
        rw [List.drop_succ_cons, ih k hk2, List.length_cons]
        omega
      · rw [List.takeWhile_cons_of_neg hc] at hk
        simp at hk

/-- Taking as many elements as the while-prefix is the while-prefix. -/
theorem take_length_takeWhile (p : Char → Bool) :
    ∀ s : List Char, s.take (s.takeWhile p).length = s.takeWhile p := by
  intro s
  induction s with
  | nil => rfl
  | cons c rest ih =>
    by_cases hc : p c = true
    · rw [List.takeWhile_cons_of_pos hc, List.length_cons, List.take_succ_cons, ih]
    · rw [List.takeWhile_cons_of_neg hc]
      rfl

/-- The greedy `\d{4..k}` attempt with trailing lookahead matches exactly
when the leading digit run has length between 4 and `k`, and then yields
that whole run. -/
theorem matchHere_eq : ∀ (k : Nat) (s : List Char),
    matchHere k s
      = if 4 ≤ (s.takeWhile Char.isDigit).length ∧ (s.takeWhile Char.isDigit).length ≤ k
        then some (s.takeWhile Char.isDigit) else none := by
  intro k
  induction k using Nat.strong_induction_on with
  | _ k ih =>
    intro s
    match k with
    | 0 => rw [if_neg (by omega)]; rfl
    | 1 => rw [if_neg (by omega)]; rfl
    | 2 => rw [if_neg (by omega)]; rfl
    | 3 => rw [if_neg (by omega)]; rfl
    | k + 4 =>
      rw [matchHere, takeExact_eq]
      by_cases h1 : k + 4 ≤ (s.takeWhile Char.isDigit).length
      · rw [if_pos h1]
        dsimp only
        by_cases h2 : k + 4 = (s.takeWhile Char.isDigit).length
        · have hla : lookaheadOk (s.drop (k + 4)) = true := (lookahead_drop s (k + 4) h1).mpr h2
          rw [hla]
          rw [h2, take_length_takeWhile]
          have hcond : 4 ≤ (s.takeWhile Char.isDigit).length
              ∧ (s.takeWhile Char.isDigit).length ≤ (s.takeWhile Char.isDigit).length :=
            ⟨by omega, Nat.le_refl _⟩
          rw [if_pos hcond, if_pos rfl]
        · have hla : lookaheadOk (s.drop (k + 4)) = false := by
            rcases hv : lookaheadOk (s.drop (k + 4)) with _ | _
            · rfl
            · exact absurd ((lookahead_drop s (k + 4) h1).mp hv) h2
          rw [hla]
          rw [if_neg (by simp)]
          rw [ih (k + 3) (by omega) s]
          rw [if_neg (by omega), if_neg (by omega)]
      · rw [if_neg h1]
        dsimp only
        rw [ih (k + 3) (by omega) s]
        have hiff : (4 ≤ (s.takeWhile Char.isDigit).length
            ∧ (s.takeWhile Char.isDigit).length ≤ k + 3)
          ↔ (4 ≤ (s.takeWhile Char.isDigit).length
            ∧ (s.takeWhile Char.isDigit).length ≤ k + 4) := by omega
        rw [if_congr hiff rfl rfl]

theorem digitRuns_cons_pos (c : Char) (rest : List Char) (hc : c.isDigit = true) :
    digitRuns (c :: rest)
      = (c :: rest.takeWhile Char.isDigit) :: digitRuns (rest.dropWhile Char.isDigit) := by
  rw [digitRuns, if_pos hc]

theorem digitRuns_cons_neg (c : Char) (rest : List Char) (hc : ¬ c.isDigit = true) :
    digitRuns (c :: rest) = digitRuns rest := by
  rw [digitRuns, if_neg hc]

/-- The position-by-position regex search returns the first maximal digit
run of length 4 to 8; when the previous character is a digit the leading
run of the remaining text is not left-bounded and is skipped. -/
theorem searchAux_eq : ∀ (s : List Char) (prev : Option Char),
    searchAux prev s
      = (if lookbehindOk prev = true then digitRuns s
         else digitRuns (s.dropWhile Char.isDigit)).find?
          (fun r => decide (4 ≤ r.length ∧ r.length ≤ 8)) := by
  intro s
  induction s with
  | nil =>
    intro prev
    rcases hb : lookbehindOk prev with _ | _
    · rw [searchAux, hb]
      simp [digitRuns]
    · rw [searchAux, hb]
      rw [matchHere_eq]
      simp [digitRuns]
  | cons c rest ih =>
    intro prev
    rcases hb : lookbehindOk prev with _ | _
    · rw [searchAux, hb]
      simp only [Bool.false_eq_true, if_false]
      rw [ih (some c)]
      by_cases hc : c.isDigit = true
      · have hbc : lookbehindOk (some c) = false := by simp [lookbehindOk, hc]
        rw [hbc]
        simp only [Bool.false_eq_true, if_false]
        rw [List.dropWhile_cons_of_pos hc]
      · have hbc : lookbehindOk (some c) = true := by simp [lookbehindOk, hc]
        rw [hbc]
        simp only [eq_self_iff_true, if_true]
        rw [List.dropWhile_cons_of_neg hc, digitRuns_cons_neg c rest hc]
    · rw [searchAux, hb]
      simp only [eq_self_iff_true, if_true]
      rw [matchHere_eq]
      by_cases hc : c.isDigit = true
      · rw [List.takeWhile_cons_of_pos hc]
        by_cases h48 : 4 ≤ (c :: rest.takeWhile Char.isDigit).length
            ∧ (c :: rest.takeWhile Char.isDigit).length ≤ 8
        · rw [if_pos h48]
          dsimp only
          rw [digitRuns_cons_pos c rest hc]
          have hfind : List.find? (fun r : List Char => decide (4 ≤ r.length ∧ r.length ≤ 8))
              ((c :: rest.takeWhile Char.isDigit) :: digitRuns (rest.dropWhile Char.isDigit))
                = some (c :: rest.takeWhile Char.isDigit) :=
            List.find?_cons_of_pos _ (by simp only [decide_eq_true_eq]; exact h48)
          rw [hfind]
        · rw [if_neg h48]
          dsimp only
          rw [ih (some c)]
          have hbc : lookbehindOk (some c) = false := by simp [lookbehindOk, hc]
          rw [hbc]
          simp only [Bool.false_eq_true, if_false]
          rw [digitRuns_cons_pos c rest hc]
          have hfind : List.find? (fun r : List Char => decide (4 ≤ r.length ∧ r.length ≤ 8))
              ((c :: rest.takeWhile Char.isDigit) :: digitRuns (rest.dropWhile Char.isDigit))
                = List.find? (fun r : List Char => decide (4 ≤ r.length ∧ r.length ≤ 8))
                  (digitRuns (rest.dropWhile Char.isDigit)) :=
            List.find?_cons_of_neg _ (by simp only [decide_eq_true_eq]; exact h48)
          rw [hfind]
      · rw [List.takeWhile_cons_of_neg hc]
        rw [if_neg (by simp)]
        dsimp only
        rw [ih (some c)]
        have hbc : lookbehindOk (some c) = true := by simp [lookbehindOk, hc]
        rw [hbc]
        simp only [eq_self_iff_true, if_true]
        rw [digitRuns_cons_neg c rest hc]

/-- C7: `extract_otp` — the embedded search for
`(?<!\d)(\d{4,8})(?!\d)` — returns, for every input, exactly the first
(in reading order) maximal run of 4 to 8 digits bounded by non-digits or
string edges on both sides (the spec-level description `extractOtpSpec`),
and absent when no such run exists; in particular
"Your code is 482913, expires soon" yields "482913" and
"order #12 item 3" yields absent. -/
theorem extract_otp_first_bounded_run :
    (∀ s : String, extract_otp s = extractOtpSpec s)
    ∧ extract_otp "Your code is 482913, expires soon" = some "482913"
    ∧ extract_otp "order #12 item 3" = none := by
  refine ⟨?_, by decide, by decide⟩
  intro s
  unfold extract_otp extractOtpSpec
  rw [searchAux_eq s.data none]
  rfl

/-- C8: when the resolved body exceeds 3200 characters,
`format_full_message` emits the header and OTP line followed by exactly
the first 3200 characters of the body and the truncation marker, nothing
more of the body — the truncated part has length exactly 3200 and is
character-for-character the body's prefix; a body of at most 3200
characters is emitted unmodified. -/
theorem format_truncation (h : Option String → String) (m : MailRecord) :
    (3200 < (resolveBody h m).length →
      format_full_message h m
        = "📩 <b>New Email</b>\n<b>From:</b> " ++ m.fromAddr.getD "unknown"
            ++ "\n<b>Subject:</b> " ++ pyOr m.subject "(no subject)"
            ++ "\n<b>Date:</b> " ++ pyOr m.createdAt "" ++ "\n\n"
            ++ (match extract_otp (resolveBody h m) with
                | some code => "🔐 <b>OTP:</b> <code>" ++ code ++ "</code>\n\n"
                | none => "")
            ++ (strTake (resolveBody h m) 3200 ++ truncMarker)
      ∧ (strTake (resolveBody h m) 3200).length = 3200
      ∧ (strTake (resolveBody h m) 3200).data = (resolveBody h m).data.take 3200)
    ∧ ((resolveBody h m).length ≤ 3200 →
      format_full_message h m
        = "📩 <b>New Email</b>\n<b>From:</b> " ++ m.fromAddr.getD "unknown"
            ++ "\n<b>Subject:</b> " ++ pyOr m.subject "(no subject)"
            ++ "\n<b>Date:</b> " ++ pyOr m.createdAt "" ++ "\n\n"
            ++ (match extract_otp (resolveBody h m) with
                | some code => "🔐 <b>OTP:</b> <code>" ++ code ++ "</code>\n\n"
                | none => "")
            ++ resolveBody h m) := by
  constructor
  · intro hlen
    refine ⟨?_, ?_, rfl⟩
    · simp only [format_full_message]
      rw [if_pos hlen]
    · show ((resolveBody h m).data.take 3200).length = 3200
      rw [List.length_take]
      have hdl : (resolveBody h m).length = (resolveBody h m).data.length := rfl
      omega
  · intro hlen
    simp only [format_full_message]
    rw [if_neg (by omega)]

/-- C8 at a concrete record: a 3201-character body is cut to exactly
3200 characters. -/
theorem longBody_strip : pyStrip longBody = longBody := by
  unfold pyStrip longBody
  rw [List.replicate_succ, List.dropWhile_cons_of_neg (by decide), ← List.replicate_succ,
    List.reverse_replicate, List.replicate_succ, List.dropWhile_cons_of_neg (by decide),
    ← List.replicate_succ, List.reverse_replicate]

theorem longBody_length : longBody.length = 3201 := by
  show (List.replicate 3201 'a').length = 3201
  rw [List.length_replicate]

theorem longBody_ne_empty : ¬ (longBody = "") := by
  intro he
  have h := longBody_length
  rw [he] at h
  simp at h

theorem resolveBody_longRec : resolveBody hNone longRec = longBody := by
  have ht : longRec.text.getD "" = longBody := rfl
  simp only [resolveBody, ht, longBody_strip, if_neg longBody_ne_empty]

/-- C8 at a concrete record: a 3201-character body is cut to exactly
3200 characters. -/
theorem format_truncation_witness :
    3200 < (resolveBody hNone longRec).length
    ∧ (strTake (resolveBody hNone longRec) 3200).length = 3200 :=
  have hlen : 3200 < (resolveBody hNone longRec).length := by
    rw [resolveBody_longRec, longBody_length]
    omega
  ⟨hlen, ((format_truncation hNone longRec).1 hlen).2.1⟩

end DisposableMail
